import Mathlib

/-!
Shallow embedding of the instant-search-backend repository
(`infra/repositories.py`, `infra/sqlite_search.py`, `api/search.py`,
`app/system_problems_service.py`, `migrations/versions/001_initial_migration.py`),
with theorems settling the frozen specification claims.

Machine conventions: UUIDs and ISO-8601 timestamp strings are modelled as `Nat`
identifiers / instants (only equality and order on them matter to the claims);
SQL `REAL` relevance statistics are modelled as `ℚ`; Python `str` operations
(`strip`, `lower`, `split`, `len`) are re-implemented over `List Char`.
-/

namespace RCT

/-- Python whitespace test for one character (`str.strip` / `str.split` default). -/
def wsp (c : Char) : Bool := c.isWhitespace

/-- Left strip: drop leading whitespace characters. -/
def ltrim (l : List Char) : List Char := l.dropWhile wsp

/-- Right strip: drop trailing whitespace characters. -/
def rtrim (l : List Char) : List Char := ((l.reverse).dropWhile wsp).reverse

/-- Python `str.strip()` on the character list. -/
def pyStripList (l : List Char) : List Char := rtrim (ltrim l)

/-- Python `str.strip()`. -/
def pyStrip (s : String) : String := ⟨pyStripList s.data⟩

/-- Python `str.lower()` (ASCII case folding, which covers every key in the catalog). -/
def pyLower (s : String) : String := ⟨s.data.map Char.toLower⟩

/-- One step of grouping characters into whitespace-separated words (fold body). -/
def splitStep (c : Char) (acc : List (List Char)) : List (List Char) :=
  if wsp c then [] :: acc
  else
    match acc with
    | [] => [[c]]
    | w :: ws => (c :: w) :: ws

/-- Python `str.split()` with no separator: split on whitespace runs, dropping
empty fragments. -/
def pyWords (l : List Char) : List (List Char) :=
  (l.foldr splitStep []).filter (fun w => !w.isEmpty)

/-- Python truthiness of an `Optional[int]` (`None` and `0` are falsy),
as used by the pagination guards `if offset:` / `if limit:`. -/
def truthy : Option Nat → Bool
  | none => false
  | some n => n != 0

/-- The shared pagination tail of the listing queries: `query.offset(offset)`
is applied only when `offset` is truthy, then `query.limit(limit)` only when
`limit` is truthy. -/
def applyPage {α : Type} (rows : List α) (limit offset : Option Nat) : List α :=
  let rows := if truthy offset then rows.drop (offset.getD 0) else rows
  if truthy limit then rows.take (limit.getD 0) else rows

/-- Row of the `study_books` table
(`migrations/versions/001_initial_migration.py`, `infra/database.py`). -/
structure StudyBookRow where
  id : Nat
  user_id : Nat
  title : String
  description : Option String
  created_at : Nat
  updated_at : Nat
deriving DecidableEq, Repr

/-- Row of the `questions` table. -/
structure QuestionRow where
  id : Nat
  study_book_id : Nat
  language : String
  category : String
  difficulty : String
  question : String
  answer : String
  created_at : Nat
  updated_at : Nat
deriving DecidableEq, Repr

/-- Row of the `typing_logs` table. -/
structure TypingLogRow where
  id : Nat
  user_id : Nat
  question_id : Option Nat
  wpm : Int
  accuracy : ℚ
  took_ms : Int
  created_at : Nat
deriving DecidableEq, Repr

/-- Row of the `users` table. -/
structure UserRow where
  id : Nat
  name : String
  email : String
  created_at : Nat
  updated_at : Nat
deriving DecidableEq, Repr

/-- Descending creation-time order used by `ORDER BY created_at DESC`;
SQLite returns equal keys in scan order, modelled by a stable sort. -/
def createdDescSB (a b : StudyBookRow) : Prop := b.created_at ≤ a.created_at

instance : DecidableRel createdDescSB := fun a b => Nat.decLe _ _

instance : IsTotal StudyBookRow createdDescSB :=
  ⟨fun a b => Nat.le_total b.created_at a.created_at⟩

instance : IsTrans StudyBookRow createdDescSB :=
  ⟨fun _ _ _ h1 h2 => Nat.le_trans h2 h1⟩

/-- `SQLAlchemyStudyBookRepository.get_by_user_id` (`infra/repositories.py:178`):
filter on `user_id`, `ORDER BY created_at DESC`, then apply `offset` and `limit`
only when they are truthy. -/
def StudyBookRepository.get_by_user_id (tbl : List StudyBookRow) (uid : Nat)
    (limit offset : Option Nat) : List StudyBookRow :=
  applyPage
    (List.insertionSort createdDescSB (tbl.filter (fun sb => sb.user_id == uid)))
    limit offset

/-- Descending creation-time order for typing logs. -/
def createdDescTL (a b : TypingLogRow) : Prop := b.created_at ≤ a.created_at

instance : DecidableRel createdDescTL := fun a b => Nat.decLe _ _

instance : IsTotal TypingLogRow createdDescTL :=
  ⟨fun a b => Nat.le_total b.created_at a.created_at⟩

instance : IsTrans TypingLogRow createdDescTL :=
  ⟨fun _ _ _ h1 h2 => Nat.le_trans h2 h1⟩

/-- `SQLAlchemyTypingLogRepository.get_by_user_id` (`infra/repositories.py:479`). -/
def TypingLogRepository.get_by_user_id (tbl : List TypingLogRow) (uid : Nat)
    (limit offset : Option Nat) : List TypingLogRow :=
  applyPage
    (List.insertionSort createdDescTL (tbl.filter (fun tl => tl.user_id == uid)))
    limit offset

/-- Errors surfaced by the repository layer (`domain/exceptions.py`):
the update path raises `QuestionNotFoundError` when the ownership join finds
no row, and integrity violations surface as `ValidationError`. -/
inductive RepoError where
  | questionNotFound
  | validationErr (msg : String)
deriving DecidableEq, Repr

/-- Database state visible to the question repository: the `study_books`
table and the `questions` table. -/
structure QuestionDb where
  study_books : List StudyBookRow
  questions : List QuestionRow
deriving DecidableEq, Repr

/-- The ownership join of `SQLAlchemyQuestionRepository`: a question row is
visible to `uid` iff some `study_books` row matches its `study_book_id` and
carries `user_id = uid` (`JOIN study_books ON questions.study_book_id =
study_books.id ... WHERE study_books.user_id = uid`). -/
def ownedBy (db : QuestionDb) (q : QuestionRow) (uid : Nat) : Bool :=
  db.study_books.any (fun sb => sb.id == q.study_book_id && sb.user_id == uid)

/-- `SQLAlchemyQuestionRepository.get_by_id` (`infra/repositories.py:292`):
first row of the join filtered by question id and requesting user. -/
def QuestionRepository.get_by_id (db : QuestionDb) (question_id uid : Nat) :
    Option QuestionRow :=
  db.questions.find? (fun q => q.id == question_id && ownedBy db q uid)

/-- `SQLAlchemyQuestionRepository.update` (`infra/repositories.py:349`):
look the row up through the ownership join; absent row raises
`QuestionNotFoundError`; otherwise overwrite the mutable fields and stamp
`updated_at` with the current time `now`. -/
def QuestionRepository.update (db : QuestionDb) (q : QuestionRow) (uid now : Nat) :
    Except RepoError (QuestionDb × QuestionRow) :=
  match QuestionRepository.get_by_id db q.id uid with
  | none => .error .questionNotFound
  | some old =>
      let newRow := { old with
        language := q.language, category := q.category,
        difficulty := q.difficulty, question := q.question,
        answer := q.answer, updated_at := now }
      .ok ({ db with
        questions := db.questions.map (fun r => if r.id == q.id then newRow else r) },
        newRow)

/-- `SQLAlchemyQuestionRepository.delete` (`infra/repositories.py:380`):
verify existence and ownership through the join; return `false` leaving the
database untouched when the join finds nothing, else remove the found row. -/
def QuestionRepository.delete (db : QuestionDb) (question_id uid : Nat) :
    Bool × QuestionDb :=
  match QuestionRepository.get_by_id db question_id uid with
  | none => (false, db)
  | some _ =>
      (true, { db with
        questions := db.questions.eraseP (fun q => q.id == question_id && ownedBy db q uid) })

/-- `SQLAlchemyUserRepository.create` (`infra/repositories.py:38`): store the
email lower-cased; the unique index `ix_users_email` makes a duplicate email
surface as a `ValidationError`. -/
def UserRepository.create (tbl : List UserRow) (u : UserRow) :
    Except RepoError (List UserRow × UserRow) :=
  let row := { u with email := pyLower u.email }
  if tbl.any (fun r => r.email == row.email) then
    .error (.validationErr "User with email already exists")
  else
    .ok (tbl ++ [row], row)

/-- `SQLAlchemyUserRepository.get_by_email` (`infra/repositories.py:73`):
compare against the argument lower-cased. -/
def UserRepository.get_by_email (tbl : List UserRow) (email : String) :
    Option UserRow :=
  tbl.find? (fun r => r.email == pyLower email)

/-- Errors of the search path (`domain/exceptions.py`): `ValidationError`
maps to HTTP 400, `SearchIndexError` to HTTP 500. -/
inductive SearchErr where
  | validationFail (msg : String)
  | indexErr (msg : String)
deriving DecidableEq, Repr

/-- One row produced by the FTS join in `SQLiteFtsStrategy.search_questions`:
a matching question with its `snippet(...)` value (SQL may yield NULL or the
empty string) and its raw `bm25(questions_fts)` statistic. -/
structure FtsMatch where
  question_id : Nat
  question : String
  answer : String
  snippetVal : Option String
  raw : ℚ
deriving DecidableEq, Repr

/-- The result DTO (`domain/dtos.py` `SearchResult`). -/
structure SearchResult where
  question_id : Nat
  question : String
  answer : String
  highlight : String
  score : ℚ
deriving DecidableEq, Repr

/-- Score normalization in `SQLiteFtsStrategy.search_questions`
(`infra/sqlite_search.py:90`): `max(0.0, 1.0 / (1.0 + abs(raw)))`. -/
def normScore (raw : ℚ) : ℚ := max 0 (1 / (1 + |raw|))

/-- Row-to-DTO conversion including the Python highlight fallback
`row[highlight] or row[question]` (`infra/sqlite_search.py:89`). -/
def toResult (m : FtsMatch) : SearchResult :=
  { question_id := m.question_id
    question := m.question
    answer := m.answer
    highlight :=
      match m.snippetVal with
      | none => m.question
      | some h => if h == "" then m.question else h
    score := normScore m.raw }

/-- The raw-statistic order of `ORDER BY bm25(questions_fts) ASC`;
ties come back in scan order, modelled by a stable sort. -/
def rawAsc (a b : FtsMatch) : Prop := a.raw ≤ b.raw

instance : DecidableRel rawAsc := fun a b => inferInstanceAs (Decidable (a.raw ≤ b.raw))

instance : IsTotal FtsMatch rawAsc := ⟨fun a b => le_total a.raw b.raw⟩

instance : IsTrans FtsMatch rawAsc := ⟨fun _ _ _ h1 h2 => le_trans h1 h2⟩

/-- The result-set shaping of `SQLiteFtsStrategy.search_questions`
(`infra/sqlite_search.py:65`): order the matching rows of the user by raw `bm25`
ascending, truncate at `LIMIT`, convert each row to a `SearchResult`. -/
def searchPipeline (ms : List FtsMatch) (lim : Nat) : List SearchResult :=
  ((List.insertionSort rawAsc ms).take lim).map toResult

/-- Validation prologue of `SQLiteFtsStrategy.search_questions`
(`infra/sqlite_search.py:52`). The database interaction is abstracted by the
pre-joined, user-scoped match list `ms`. -/
def SQLiteFtsStrategy.search_questions (query : String) (lim : Int)
    (ms : List FtsMatch) : Except SearchErr (List SearchResult) :=
  if query == "" || pyStrip query == "" then
    .error (.validationFail "Search query cannot be empty")
  else if lim ≤ 0 || 100 < lim then
    .error (.validationFail "Limit must be between 1 and 100")
  else
    .ok (searchPipeline ms lim.toNat)

/-- The `search_questions` endpoint handler body (`api/search.py:46`):
reject blank input, trim, reject trimmed length over 200, then delegate to
the strategy. -/
def api.search_questions (q : String) (lim : Int) (ms : List FtsMatch) :
    Except SearchErr (List SearchResult) :=
  if q == "" || pyStrip q == "" then
    .error (.validationFail "Search query cannot be empty")
  else
    let query := pyStrip q
    if 200 < query.data.length then
      .error (.validationFail "Search query cannot exceed 200 characters")
    else
      SQLiteFtsStrategy.search_questions query lim ms

/-- Python `sep.join(parts)`. -/
def pyJoin (sep : String) : List String → String
  | [] => ""
  | [x] => x
  | x :: y :: t => x ++ sep ++ pyJoin sep (y :: t)

/-- FTS5 escaping of one token (`infra/sqlite_search.py:140`): every inner
double quote is doubled. -/
def escQuote (w : List Char) : List Char :=
  (w.map (fun c => if c == '"' then ['"', '"'] else [c])).flatten

/-- One quoted, escaped token as it appears in the prepared query string. -/
def quotedToken (w : List Char) : String := "\"" ++ String.mk (escQuote w) ++ "\""

/-- The token list `query.strip().split()` of `_prepare_fts_query`. -/
def ftsTokens (q : String) : List (List Char) := pyWords (pyStripList q.data)

/-- `SQLiteFtsStrategy._prepare_fts_query` (`infra/sqlite_search.py:124`):
whitespace-split the stripped query, quote-escape each word, join with OR;
an empty word list falls back to the quoted empty phrase. -/
def SQLiteFtsStrategy.prepare_fts_query (q : String) : String :=
  let words := ftsTokens q
  if words.isEmpty then "\"\""
  else pyJoin " OR " (words.map quotedToken)

/-- Modelled from the spec: the query construction described in section 4.3
(split the trimmed query on whitespace into tokens; escape characters special
to the query syntax; join the tokens with logical OR), stated as a function to
compare against `SQLiteFtsStrategy.prepare_fts_query`. -/
def specPreparedQuery (q : String) : String :=
  pyJoin " OR " ((ftsTokens q).map quotedToken)

/-- Abstract syntax of the produced FTS5 queries: quoted phrases joined by OR. -/
inductive FtsQuery where
  | phrase (w : List Char)
  | orq (a b : FtsQuery)
deriving DecidableEq, Repr

/-- Rendering of the query AST to FTS5 concrete syntax. -/
def FtsQuery.render : FtsQuery → String
  | .phrase w => quotedToken w
  | .orq a b => a.render ++ " OR " ++ b.render

/-- Modelled from the spec: FTS5 match semantics for the produced query shape
over a document given as its token list — a phrase `w` matches iff `w` occurs
among the document tokens, and OR matches iff either side does. -/
def FtsQuery.hit (d : List (List Char)) : FtsQuery → Bool
  | .phrase w => d.contains w
  | .orq a b => a.hit d || b.hit d

/-- The OR-tree built from a nonempty token list (right fold of `orq`). -/
def orTree (w : List Char) : List (List Char) → FtsQuery
  | [] => .phrase w
  | w' :: ws => .orq (.phrase w) (orTree w' ws)

/-- A `questions_fts` row: copied searchable text keyed by question id
(`001_initial_migration.py:93`). -/
structure FtsRow where
  question_id : Nat
  question : String
  answer : String
deriving DecidableEq, Repr

/-- Projection of a question row to its index entry. -/
def ftsEntry (r : QuestionRow) : FtsRow :=
  { question_id := r.id, question := r.question, answer := r.answer }

/-- Joint state of the `questions` table and the `questions_fts` index. -/
structure SearchDb where
  questions : List QuestionRow
  fts : List FtsRow
deriving DecidableEq, Repr

/-- A committed mutation of the `questions` table: the three statement shapes
issued by the repository (INSERT a fresh row; UPDATE the mutable fields of one
id; DELETE one id). -/
inductive QOp where
  | insert (r : QuestionRow)
  | update (id : Nat) (language category difficulty question answer : String)
      (updated_at : Nat)
  | delete (id : Nat)
deriving DecidableEq, Repr

/-- Transactional semantics of one committed mutation together with the
`questions_fts_insert` / `questions_fts_update` / `questions_fts_delete`
triggers (`001_initial_migration.py:104`): each AFTER trigger fires exactly
when at least one row was touched, inside the same transaction; an INSERT
violating the primary key aborts the whole transaction, rolling back the
trigger effect with it. -/
def applyOp (s : SearchDb) : QOp → SearchDb
  | .insert r =>
      if s.questions.any (fun q => q.id == r.id) then s
      else
        { questions := s.questions ++ [r]
          fts := s.fts ++ [ftsEntry r] }
  | .update id lang cat diff qt ans ts =>
      if s.questions.any (fun q => q.id == id) then
        { questions := s.questions.map (fun r =>
            if r.id == id then
              { r with
                language := lang, category := cat, difficulty := diff,
                question := qt, answer := ans, updated_at := ts }
            else r)
          fts := s.fts.map (fun e =>
            if e.question_id == id then { e with question := qt, answer := ans } else e) }
      else s
  | .delete id =>
      if s.questions.any (fun q => q.id == id) then
        { questions := s.questions.filter (fun q => !(q.id == id))
          fts := s.fts.filter (fun e => !(e.question_id == id)) }
      else s

/-- A whole committed history applied to the initial (post-migration, empty)
state. -/
def runOps (ops : List QOp) : SearchDb :=
  ops.foldl applyOp { questions := [], fts := [] }

/-- `DifficultyLevel` (`domain/system_problems.py`). -/
inductive DifficultyLevel where
  | beginner
  | intermediate
  | advanced
deriving DecidableEq, Repr

/-- `SystemProblem` (`domain/system_problems.py`). -/
structure SystemProblem where
  question : String
  answer : String
  difficulty : DifficultyLevel
  category : String
deriving DecidableEq, Repr

/-- Shorthand for the identical question/answer pairs of the catalog. -/
def sp (text : String) (d : DifficultyLevel) (cat : String) : SystemProblem :=
  { question := text, answer := text, difficulty := d, category := cat }

/-- `create_default_problems_data` (`app/system_problems_service.py:26`):
the static catalog, keyed by lower-case language name. -/
def create_default_problems_data : List (String × List SystemProblem) :=
  [ ("html",
      [ sp "<!DOCTYPE html>" .beginner "doctype"
      , sp "<html lang=\x27ja\x27>" .beginner "attributes"
      , sp "<meta charset=\x27UTF-8\x27>" .beginner "meta" ])
  , ("css",
      [ sp "* \x7b box-sizing: border-box; \x7d" .intermediate "universal"
      , sp ".container \x7b max-width: 1200px; margin: 0 auto; \x7d" .beginner "layout" ])
  , ("javascript",
      [ sp "const arr = [1, 2, 3, 4, 5];" .beginner "arrays"
      , sp "arr.map(x => x * 2)" .intermediate "methods"
      , sp "function calculateSum(a, b) \x7b return a + b; \x7d" .beginner "functions" ])
  , ("php",
      [ sp "<?php echo \x27Hello World\x27; ?>" .beginner "basics" ])
  , ("java",
      [ sp "public class Main \x7b public static void main(String[] args) \x7b" .beginner "class" ])
  , ("python3",
      [ sp "def calculate_sum(a, b): return a + b" .beginner "functions" ])
  , ("sql",
      [ sp "SELECT * FROM users WHERE age > 18;" .beginner "queries"
      , sp "CREATE TABLE users (id INT PRIMARY KEY, name VARCHAR(100));" .intermediate "ddl" ])
  , ("linux (red hat)",
      [ sp "sudo yum install nginx" .beginner "package" ])
  , ("linux(debian)",
      [ sp "sudo apt-get update && sudo apt-get install nginx" .beginner "package" ])
  , ("git",
      [ sp "git add . && git commit -m \x27Initial commit\x27" .beginner "basics" ])
  ]

/-- `SystemProblemsService.normalize_language`
(`app/system_problems_service.py:21`): `language.lower().strip()`. -/
def normalize_language (language : String) : String := pyStrip (pyLower language)

/-- `DefaultSystemProblemsService.get_problems_by_language`
(`app/system_problems_service.py:158`): after the lazy load the lookup is
`self._problems_data.get(normalized_lang, [])`. -/
def get_problems_by_language (language : String) : List SystemProblem :=
  match create_default_problems_data.find?
      (fun kv => kv.1 == normalize_language language) with
  | some kv => kv.2
  | none => []

/-- The ordering asserted by the pagination claim: creation time strictly
descending, equal creation times ordered by ascending id. -/
def claimOrderSB (a b : StudyBookRow) : Prop :=
  b.created_at < a.created_at ∨ (a.created_at = b.created_at ∧ a.id ≤ b.id)

instance : DecidableRel claimOrderSB :=
  fun a b => inferInstanceAs (Decidable (_ ∨ _))

/-- The ordering asserted by the search-ordering claim: normalized score
strictly descending, ties ordered by ascending item id. -/
def claimOrderSR (a b : SearchResult) : Prop :=
  b.score < a.score ∨ (a.score = b.score ∧ a.question_id ≤ b.question_id)

instance : DecidableRel claimOrderSR :=
  fun a b => inferInstanceAs (Decidable (_ ∨ _))

/-- Score-descending order on results. -/
def scoreDesc (a b : SearchResult) : Prop := b.score ≤ a.score

instance : DecidableRel scoreDesc :=
  fun a b => inferInstanceAs (Decidable (b.score ≤ a.score))

/-- Concrete study-book table with a creation-time tie: the row with the
larger id was inserted first. -/
def exBooksTie : List StudyBookRow :=
  [ { id := 2, user_id := 1, title := "second", description := none,
      created_at := 5, updated_at := 5 }
  , { id := 1, user_id := 1, title := "first", description := none,
      created_at := 5, updated_at := 5 } ]

/-- Concrete FTS matches with the sign convention of SQLite `bm25()`
(more relevant ⇒ more negative). -/
def exMatches : List FtsMatch :=
  [ { question_id := 1, question := "q1", answer := "a1", snippetVal := none, raw := -1 }
  , { question_id := 2, question := "q2", answer := "a2", snippetVal := none, raw := -5 } ]

/-- A query of 201 identical characters (trimmed length 201, within the
1–500 range the claim asserts is accepted). -/
def q201 : String := ⟨List.replicate 201 'a'⟩

/-- Concrete ownership scenario: user 1 owns study book 10 which holds
question 100. -/
def exDb : QuestionDb :=
  { study_books :=
      [ { id := 10, user_id := 1, title := "book", description := none,
          created_at := 0, updated_at := 0 } ]
    questions :=
      [ { id := 100, study_book_id := 10, language := "python", category := "basics",
          difficulty := "easy", question := "What is a variable?",
          answer := "A named storage location", created_at := 0, updated_at := 0 } ] }

/-- The question row of `exDb`. -/
def exQ : QuestionRow :=
  { id := 100, study_book_id := 10, language := "python", category := "basics",
    difficulty := "easy", question := "What is a variable?",
    answer := "A named storage location", created_at := 0, updated_at := 0 }

/-- The same domain question under a fresh id that exists nowhere in `exDb`. -/
def exQFresh : QuestionRow := { exQ with id := 999 }

/-- Concrete user whose email mixes letter cases. -/
def exUser : UserRow :=
  { id := 1, name := "n", email := "Ab@X.com", created_at := 0, updated_at := 0 }

/-- The stored row for `exUser`: email lower-cased by `create`. -/
def exUserRow : UserRow := { exUser with email := "ab@x.com" }

/-! ## Helper lemmas -/

theorem length_dropWhile_le (p : Char → Bool) (l : List Char) :
    (l.dropWhile p).length ≤ l.length := by
  induction l with
  | nil => simp
  | cons a l ih =>
    rw [List.dropWhile_cons]
    split
    · exact le_trans ih (by simp)
    · simp

theorem dropWhile_eq_self_of_front {p : Char → Bool} {m m' : List Char}
    (hm : m.dropWhile p = m) (hp : m' <+: m) : m'.dropWhile p = m' := by
  cases m' with
  | nil => rfl
  | cons c rest =>
    obtain ⟨t, ht⟩ := hp
    have hc : p c = false := by
      cases hpc : p c with
      | false => rfl
      | true =>
        have hm' : m = c :: (rest ++ t) := by rw [← ht]; simp
        have hcontra := hm
        rw [hm', List.dropWhile_cons, hpc, if_pos rfl] at hcontra
        have hlen := congrArg List.length hcontra
        have hle := length_dropWhile_le p (rest ++ t)
        simp only [List.length_cons, List.length_append] at hlen hle
        omega
    rw [List.dropWhile_cons, hc]
    simp

theorem ltrim_idem (l : List Char) : ltrim (ltrim l) = ltrim l :=
  List.dropWhile_idempotent wsp l

theorem rtrim_eq_rdropWhile (l : List Char) : rtrim l = List.rdropWhile wsp l := rfl

theorem rtrim_idem (l : List Char) : rtrim (rtrim l) = rtrim l := by
  rw [rtrim_eq_rdropWhile, rtrim_eq_rdropWhile, List.rdropWhile_idempotent]

theorem rtrim_front (l : List Char) : rtrim l <+: l := by
  rw [rtrim_eq_rdropWhile]; exact List.rdropWhile_prefix _ _

theorem pyStripList_idem (l : List Char) :
    pyStripList (pyStripList l) = pyStripList l := by
  unfold pyStripList
  have h2 : ltrim (rtrim (ltrim l)) = rtrim (ltrim l) :=
    dropWhile_eq_self_of_front (ltrim_idem l) (rtrim_front (ltrim l))
  rw [h2, rtrim_idem]

theorem pyStrip_data (s : String) : (pyStrip s).data = pyStripList s.data := rfl

theorem pyStrip_idem (s : String) : pyStrip (pyStrip s) = pyStrip s := by
  show String.mk (pyStripList (pyStripList s.data)) = String.mk (pyStripList s.data)
  rw [pyStripList_idem]

theorem string_eq_iff_data {s t : String} : s = t ↔ s.data = t.data :=
  ⟨fun h => h ▸ rfl, fun h => by cases s; cases t; exact congrArg String.mk h⟩

theorem pyStrip_empty_iff (s : String) : pyStrip s = "" ↔ (pyStrip s).data = [] := by
  rw [string_eq_iff_data]

/-! ## Claim theorems -/

/-- C7: `getItemsForLanguage` first case-folds and trims its key, so keys
equal after lower-casing and trimming give identical results; a key whose
normalized form is absent from the catalog yields the empty list, never an
error. -/
theorem reference_lookup_normalizes_and_defaults :
    (∀ k1 k2 : String, normalize_language k1 = normalize_language k2 →
        get_problems_by_language k1 = get_problems_by_language k2) ∧
    (∀ k : String,
        (create_default_problems_data.all
          (fun kv => kv.1 != normalize_language k)) = true →
        get_problems_by_language k = []) ∧
    get_problems_by_language "JavaScript" = get_problems_by_language "javascript" ∧
    get_problems_by_language "  JAVASCRIPT " = get_problems_by_language "javascript" ∧
    get_problems_by_language "unknown-lang" = [] := by
  refine ⟨?_, ?_, by decide, by decide, by decide⟩
  · intro k1 k2 h
    unfold get_problems_by_language
    rw [h]
  · intro k h
    unfold get_problems_by_language
    have hnone : create_default_problems_data.find?
        (fun kv => kv.1 == normalize_language k) = none := by
      rw [List.find?_eq_none]
      intro kv hkv
      have := List.all_eq_true.mp h kv hkv
      simpa using this
    rw [hnone]

/-- C9: in the listing operations a limit of 0 and an offset of 0 are each
treated as if the parameter were absent (the guards test Python truthiness):
`limit = 0` returns every row of the user rather than an empty page, and
`offset = 0` skips nothing — for both the study-book and typing-log
repositories. -/
theorem zero_limit_offset_treated_as_absent
    (books : List StudyBookRow) (logs : List TypingLogRow) (uid : Nat)
    (lim off : Option Nat) :
    StudyBookRepository.get_by_user_id books uid (some 0) off =
      StudyBookRepository.get_by_user_id books uid none off ∧
    StudyBookRepository.get_by_user_id books uid lim (some 0) =
      StudyBookRepository.get_by_user_id books uid lim none ∧
    (StudyBookRepository.get_by_user_id books uid (some 0) none).Perm
      (books.filter (fun sb => sb.user_id == uid)) ∧
    TypingLogRepository.get_by_user_id logs uid (some 0) off =
      TypingLogRepository.get_by_user_id logs uid none off ∧
    TypingLogRepository.get_by_user_id logs uid lim (some 0) =
      TypingLogRepository.get_by_user_id logs uid lim none ∧
    (TypingLogRepository.get_by_user_id logs uid (some 0) none).Perm
      (logs.filter (fun tl => tl.user_id == uid)) := by
  refine ⟨rfl, rfl, ?_, rfl, rfl, ?_⟩
  · simpa [StudyBookRepository.get_by_user_id, truthy] using
      (List.perm_insertionSort createdDescSB
        (books.filter (fun sb => sb.user_id == uid)))
  · simpa [TypingLogRepository.get_by_user_id, truthy] using
      (List.perm_insertionSort createdDescTL
        (logs.filter (fun tl => tl.user_id == uid)))

theorem applyOp_preserves (s : SearchDb) (op : QOp)
    (h : s.fts = s.questions.map ftsEntry) :
    (applyOp s op).fts = (applyOp s op).questions.map ftsEntry := by
  cases op with
  | insert r =>
    simp only [applyOp]
    split
    · exact h
    · simp only [List.map_append, ← h, List.map_cons, List.map_nil]
  | update id lang cat diff qt ans ts =>
    simp only [applyOp]
    split
    · rw [h, List.map_map, List.map_map]
      have hfun :
          ((fun e : FtsRow =>
              if e.question_id == id then { e with question := qt, answer := ans } else e)
            ∘ ftsEntry) =
          (ftsEntry ∘ (fun r : QuestionRow =>
              if r.id == id then
                { r with
                  language := lang, category := cat, difficulty := diff,
                  question := qt, answer := ans, updated_at := ts }
              else r)) := by
        funext r
        by_cases hr : r.id == id
        · simp [ftsEntry, Function.comp, hr]
        · simp [ftsEntry, Function.comp, hr]
      rw [hfun]
    · exact h
  | delete id =>
    simp only [applyOp]
    split
    · rw [h, List.filter_map]
      rfl
    · exact h

/-- C2: starting from the freshly migrated (empty) database, after every
committed sequence of question inserts, updates and deletes the
`questions_fts` rows are exactly the projections of the current `questions`
rows — no orphaned index entry, no missing one — because the trigger runs in
the mutating transaction. -/
theorem fts_index_matches_questions (ops : List QOp) :
    (runOps ops).fts = (runOps ops).questions.map ftsEntry ∧
    ∀ e : FtsRow, e ∈ (runOps ops).fts ↔
      ∃ r ∈ (runOps ops).questions, ftsEntry r = e := by
  have key : ∀ (l : List QOp) (s : SearchDb), s.fts = s.questions.map ftsEntry →
      (l.foldl applyOp s).fts = (l.foldl applyOp s).questions.map ftsEntry := by
    intro l
    induction l with
    | nil => intro s h; exact h
    | cons op rest ih => intro s h; exact ih _ (applyOp_preserves s op h)
  have h0 : (runOps ops).fts = (runOps ops).questions.map ftsEntry := key ops _ rfl
  refine ⟨h0, fun e => ?_⟩
  rw [h0]
  exact List.mem_map

theorem one_add_abs_pos (r : ℚ) : (0 : ℚ) < 1 + |r| :=
  lt_of_lt_of_le one_pos (le_add_of_nonneg_right (abs_nonneg r))

theorem normScore_eq (r : ℚ) : normScore r = 1 / (1 + |r|) := by
  unfold normScore
  exact max_eq_right (le_of_lt (div_pos one_pos (one_add_abs_pos r)))

theorem normScore_pos (r : ℚ) : 0 < normScore r := by
  rw [normScore_eq]
  exact div_pos one_pos (one_add_abs_pos r)

theorem normScore_le_one (r : ℚ) : normScore r ≤ 1 := by
  rw [normScore_eq]
  exact (div_le_one (one_add_abs_pos r)).mpr
    (le_add_of_nonneg_right (abs_nonneg r))

theorem normScore_strict_anti {r1 r2 : ℚ} (h : |r1| < |r2|) :
    normScore r2 < normScore r1 := by
  rw [normScore_eq, normScore_eq]
  exact one_div_lt_one_div_of_lt (one_add_abs_pos r1) (by linarith)

theorem normScore_anti_on_nonneg {a b : ℚ} (ha : 0 ≤ a) (hab : a ≤ b) :
    normScore b ≤ normScore a := by
  rw [normScore_eq, normScore_eq]
  apply one_div_le_one_div_of_le (one_add_abs_pos a)
  rw [abs_of_nonneg ha, abs_of_nonneg (le_trans ha hab)]
  linarith

/-- C5: every user-facing score equals `1 / (1 + |raw|)` (the `max 0` guard
is inert), hence lies in `(0, 1]`; of two matches, the one with the
smaller-magnitude raw statistic gets the strictly greater score; every score
in a search result list obeys the bounds. -/
theorem score_is_reciprocal_normalized :
    (∀ raw : ℚ, normScore raw = 1 / (1 + |raw|)) ∧
    (∀ raw : ℚ, 0 < normScore raw ∧ normScore raw ≤ 1) ∧
    (∀ r1 r2 : ℚ, |r1| < |r2| → normScore r2 < normScore r1) ∧
    (∀ (ms : List FtsMatch) (lim : Nat) (r : SearchResult),
        r ∈ searchPipeline ms lim → 0 < r.score ∧ r.score ≤ 1) := by
  refine ⟨normScore_eq, fun raw => ⟨normScore_pos raw, normScore_le_one raw⟩,
    fun r1 r2 h => normScore_strict_anti h, ?_⟩
  intro ms lim r hr
  unfold searchPipeline at hr
  rcases List.mem_map.mp hr with ⟨m, _, rfl⟩
  exact ⟨normScore_pos m.raw, normScore_le_one m.raw⟩

/-- C4 (counterexample): with the sign convention of SQLite `bm25()` (more
relevant ⇒ more negative raw statistic), the produced result list is ordered
by raw statistic ascending, which is normalized score ASCENDING — the claimed
score-descending order (with id tie-break) fails on this two-element index. -/
theorem search_order_counterexample :
    (searchPipeline exMatches 50).map (fun r => r.question_id) = [2, 1] ∧
    (searchPipeline exMatches 50).map (fun r => r.score) = [1/6, 1/2] ∧
    ¬ List.Sorted claimOrderSR (searchPipeline exMatches 50) ∧
    ¬ List.Sorted scoreDesc (searchPipeline exMatches 50) := by
  have h5 : normScore (-5) = 1/6 := by rw [normScore_eq]; norm_num
  have h1 : normScore (-1) = 1/2 := by rw [normScore_eq]; norm_num
  have hpipe : searchPipeline exMatches 50 =
      [ { question_id := 2, question := "q2", answer := "a2",
          highlight := "q2", score := 1/6 }
      , { question_id := 1, question := "q1", answer := "a1",
          highlight := "q1", score := 1/2 } ] := by
    unfold searchPipeline exMatches
    rw [show List.insertionSort rawAsc
        [ ({ question_id := 1, question := "q1", answer := "a1",
             snippetVal := none, raw := -1 } : FtsMatch)
        , { question_id := 2, question := "q2", answer := "a2",
            snippetVal := none, raw := -5 } ] =
        [ ({ question_id := 2, question := "q2", answer := "a2",
             snippetVal := none, raw := -5 } : FtsMatch)
        , { question_id := 1, question := "q1", answer := "a1",
            snippetVal := none, raw := -1 } ] from ?_]
    · simp [toResult, h5, h1]
    · show List.orderedInsert rawAsc _ (List.orderedInsert rawAsc _ []) = _
      rw [List.orderedInsert, List.orderedInsert]
      rw [if_neg (by unfold rawAsc; norm_num)]
      simp [List.orderedInsert]
  rw [hpipe]
  refine ⟨rfl, rfl, ?_, ?_⟩
  · intro hsort
    have h := (List.pairwise_cons.mp hsort).1
      { question_id := 1, question := "q1", answer := "a1",
        highlight := "q1", score := 1/2 }
      (by simp)
    rcases h with h | ⟨h, _⟩ <;> norm_num at h
  · intro hsort
    have h := (List.pairwise_cons.mp hsort).1
      { question_id := 1, question := "q1", answer := "a1",
        highlight := "q1", score := 1/2 }
      (by simp)
    unfold scoreDesc at h
    norm_num at h

/-- C4 (amended): for every fixed match list the results are ordered by the
raw relevance statistic ascending with ties kept in scan order and no id
tie-break; this is deterministic — repeated identical queries over an
unchanged index yield the same list — and it coincides with normalized-score
descending exactly on indexes whose raw statistics are nonnegative. -/
theorem search_order_raw_ascending (ms : List FtsMatch) (lim : Nat) :
    List.Sorted rawAsc (List.insertionSort rawAsc ms) ∧
    searchPipeline ms lim = ((List.insertionSort rawAsc ms).take lim).map toResult ∧
    ((∀ m ∈ ms, 0 ≤ m.raw) →
      List.Sorted scoreDesc (searchPipeline ms lim)) := by
  refine ⟨List.sorted_insertionSort rawAsc ms, rfl, ?_⟩
  intro hnn
  have hsorted : List.Sorted rawAsc (List.insertionSort rawAsc ms) :=
    List.sorted_insertionSort rawAsc ms
  have htake : List.Sorted rawAsc ((List.insertionSort rawAsc ms).take lim) :=
    hsorted.sublist (List.take_sublist lim _)
  have hmem : ∀ m ∈ (List.insertionSort rawAsc ms).take lim, 0 ≤ m.raw := by
    intro m hm
    exact hnn m ((List.perm_insertionSort rawAsc ms).mem_iff.mp
      ((List.take_sublist lim _).mem hm))
  unfold searchPipeline
  rw [List.Sorted, List.pairwise_map]
  refine htake.imp_of_mem ?_
  intro a b ha hb hab
  show (toResult b).score ≤ (toResult a).score
  exact normScore_anti_on_nonneg (hmem a ha) hab

theorem applyPage_sublist {α : Type} (rows : List α) (lim off : Option Nat) :
    List.Sublist (applyPage rows lim off) rows := by
  have hd : List.Sublist
      (if truthy off = true then rows.drop (off.getD 0) else rows) rows := by
    split
    · exact List.drop_sublist _ _
    · exact List.Sublist.refl _
  show List.Sublist
    (if truthy lim = true then
      (if truthy off = true then rows.drop (off.getD 0) else rows).take (lim.getD 0)
    else (if truthy off = true then rows.drop (off.getD 0) else rows)) rows
  split
  · exact List.Sublist.trans (List.take_sublist _ _) hd
  · exact hd

theorem applyPage_none {α : Type} (rows : List α) : applyPage rows none none = rows := rfl

/-- C8 (counterexample): with two study books sharing one creation instant,
the listing returns them in scan (insertion) order `[id 2, id 1]`, not ordered
by id — the claimed id tie-break does not exist in the query. -/
theorem studybook_listing_counterexample :
    (StudyBookRepository.get_by_user_id exBooksTie 1 none none).map
      (fun sb => sb.id) = [2, 1] ∧
    ¬ List.Sorted claimOrderSB
      (StudyBookRepository.get_by_user_id exBooksTie 1 none none) := by
  constructor
  · decide
  · decide

/-- C8 (amended): every page returned by `listByUser` is ordered by creation
time descending, with equal creation times left in scan order (no id
tie-break); the unpaged listing is a permutation of the rows of the user, and the
listing function is deterministic, so repeated calls with the same limit and
offset against an unchanged dataset return identical results. -/
theorem studybook_listing_sorted (tbl : List StudyBookRow) (uid : Nat)
    (lim off : Option Nat) :
    List.Sorted createdDescSB (StudyBookRepository.get_by_user_id tbl uid lim off) ∧
    (StudyBookRepository.get_by_user_id tbl uid none none).Perm
      (tbl.filter (fun sb => sb.user_id == uid)) := by
  constructor
  · exact (List.sorted_insertionSort createdDescSB _).sublist
      (applyPage_sublist _ lim off)
  · rw [StudyBookRepository.get_by_user_id, applyPage_none]
    exact List.perm_insertionSort createdDescSB _

/-- C1: when the owning study book of question `q` belongs to user `A`, any
other requesting user `B` sees exactly the behavior of a nonexistent id:
`get_by_id` returns nothing, `update` fails not-found, `delete` returns
`false` leaving the database unchanged — and the same three outcomes occur
for an id `qid2` that exists nowhere, making the two indistinguishable.
Ownership is decided by the join to the `user_id` of the study book; `huniq`
captures the primary-key uniqueness of question ids. -/
theorem question_tenant_isolation
    (db : QuestionDb) (q qd qd2 : QuestionRow) (A B now qid2 : Nat)
    (hq : q ∈ db.questions)
    (huniq : ∀ q' ∈ db.questions, q'.id = q.id → q' = q)
    (hown : ∀ sb ∈ db.study_books, sb.id = q.study_book_id → sb.user_id = A)
    (hAB : B ≠ A)
    (hqd : qd.id = q.id)
    (hfresh : ∀ q' ∈ db.questions, q'.id ≠ qid2)
    (hqd2 : qd2.id = qid2) :
    QuestionRepository.get_by_id db q.id B = none ∧
    QuestionRepository.update db qd B now = .error .questionNotFound ∧
    QuestionRepository.delete db q.id B = (false, db) ∧
    QuestionRepository.get_by_id db qid2 B = none ∧
    QuestionRepository.update db qd2 B now = .error .questionNotFound ∧
    QuestionRepository.delete db qid2 B = (false, db) := by
  have hgb : QuestionRepository.get_by_id db q.id B = none := by
    unfold QuestionRepository.get_by_id
    rw [List.find?_eq_none]
    intro x hx hcontra
    rw [Bool.and_eq_true] at hcontra
    obtain ⟨hid, hownB⟩ := hcontra
    have hxq : x = q := huniq x hx (by simpa using hid)
    subst hxq
    unfold ownedBy at hownB
    rw [List.any_eq_true] at hownB
    obtain ⟨sb, hsb, hsbp⟩ := hownB
    rw [Bool.and_eq_true] at hsbp
    have hA : sb.user_id = A := hown sb hsb (by simpa using hsbp.1)
    have hB : sb.user_id = B := by simpa using hsbp.2
    exact hAB (hB ▸ hA)
  have hgb2 : QuestionRepository.get_by_id db qid2 B = none := by
    unfold QuestionRepository.get_by_id
    rw [List.find?_eq_none]
    intro x hx hcontra
    rw [Bool.and_eq_true] at hcontra
    exact hfresh x hx (by simpa using hcontra.1)
  refine ⟨hgb, ?_, ?_, hgb2, ?_, ?_⟩
  · unfold QuestionRepository.update
    rw [hqd, hgb]
  · unfold QuestionRepository.delete
    rw [hgb]
  · unfold QuestionRepository.update
    rw [hqd2, hgb2]
  · unfold QuestionRepository.delete
    rw [hgb2]

/-- C1 (witness): the concrete scenario — user 1 owns study book 10 holding
question 100; the `get`/`update`/`delete` calls of user 2 against id 100 behave exactly
as against the absent id 999. -/
theorem question_tenant_isolation_witness :
    QuestionRepository.get_by_id exDb exQ.id 2 = none ∧
    QuestionRepository.update exDb exQ 2 7 = .error .questionNotFound ∧
    QuestionRepository.delete exDb exQ.id 2 = (false, exDb) ∧
    QuestionRepository.get_by_id exDb 999 2 = none ∧
    QuestionRepository.update exDb exQFresh 2 7 = .error .questionNotFound ∧
    QuestionRepository.delete exDb 999 2 = (false, exDb) :=
  question_tenant_isolation exDb exQ exQ exQFresh 1 2 7 999
    (by decide) (by decide) (by decide) (by decide) (by decide) (by decide) (by decide)

theorem find?_append_of_forall_false {α : Type} (p : α → Bool) (l1 l2 : List α)
    (h : ∀ x ∈ l1, p x = false) : (l1 ++ l2).find? p = l2.find? p := by
  induction l1 with
  | nil => rfl
  | cons a t ih =>
    rw [List.cons_append, List.find?_cons, h a (List.mem_cons_self a t)]
    exact ih fun x hx => h x (List.mem_cons_of_mem a hx)

/-- C10: email lookup round-trips regardless of letter case — after a
successful `create`, any string that lower-cases to the same characters as
the email of the created user finds the stored row, because `create` stores the
email lower-cased and `get_by_email` lower-cases its argument; when the
incoming email is already lower-case (the domain validator guarantees it),
the stored row is the user itself. -/
theorem user_email_case_insensitive_roundtrip
    (tbl tbl' : List UserRow) (u row : UserRow) (s : String)
    (hc : UserRepository.create tbl u = .ok (tbl', row))
    (hs : pyLower s = pyLower u.email) :
    UserRepository.get_by_email tbl' s = some row ∧
    (pyLower u.email = u.email → row = u) := by
  unfold UserRepository.create at hc
  by_cases hdup : (tbl.any (fun r => r.email == pyLower u.email)) = true
  · rw [if_pos hdup] at hc
    cases hc
  · rw [if_neg hdup] at hc
    rw [Except.ok.injEq, Prod.mk.injEq] at hc
    obtain ⟨h1, h2⟩ := hc
    subst h1
    subst h2
    constructor
    · unfold UserRepository.get_by_email
      rw [find?_append_of_forall_false]
      · rw [List.find?_cons]
        have hp : (({ u with email := pyLower u.email } : UserRow).email ==
            pyLower s) = true := by
          simp [hs]
        rw [hp]
      · intro x hx
        have hall := List.any_eq_false.mp (Bool.not_eq_true _ ▸ hdup) x hx
        rw [hs]
        exact Bool.not_eq_true _ ▸ hall
    · intro hl
      show ({ u with email := pyLower u.email } : UserRow) = u
      rw [hl]

/-- C10 (witness): creating a user with email `Ab@X.com` stores `ab@x.com`,
and `get_by_email "aB@x.COM"` finds that row. -/
theorem user_email_case_insensitive_roundtrip_witness :
    UserRepository.get_by_email [exUserRow] "aB@x.COM" = some exUserRow ∧
    (pyLower exUser.email = exUser.email → exUserRow = exUser) :=
  user_email_case_insensitive_roundtrip [] [exUserRow] exUser exUserRow "aB@x.COM"
    rfl (by decide)

theorem pyStrip_ne_empty_of_length {q : String}
    (h : 1 ≤ (pyStrip q).data.length) : (pyStrip q == "") = false := by
  rw [beq_eq_false_iff_ne]
  intro he
  rw [pyStrip_empty_iff] at he
  rw [he] at h
  simp at h

set_option maxRecDepth 8000 in
/-- C3 (counterexample): a trimmed query of 201 characters — inside the
1–500 range the claim asserts is accepted — is rejected with a validation
failure by the search operation. -/
theorem search_query_length_counterexample :
    (pyStrip q201).data.length = 201 ∧ (201 : Nat) ≤ 500 ∧
    api.search_questions q201 50 [] =
      .error (.validationFail "Search query cannot exceed 200 characters") := by
  refine ⟨by decide, by decide, ?_⟩
  rfl

/-- C3 (amended): for a limit in range, the search operation accepts every
trimmed query of length 1 through 200 and rejects an empty (all-whitespace)
query or one whose trimmed length exceeds 200 with a validation failure —
never a success and never an index error. -/
theorem search_query_length_validation
    (q : String) (lim : Int) (ms : List FtsMatch)
    (hlim1 : 1 ≤ lim) (hlim2 : lim ≤ 100) :
    (1 ≤ (pyStrip q).data.length → (pyStrip q).data.length ≤ 200 →
      api.search_questions q lim ms = .ok (searchPipeline ms lim.toNat)) ∧
    ((pyStrip q).data.length = 0 →
      api.search_questions q lim ms =
        .error (.validationFail "Search query cannot be empty")) ∧
    (200 < (pyStrip q).data.length →
      api.search_questions q lim ms =
        .error (.validationFail "Search query cannot exceed 200 characters")) := by
  refine ⟨?_, ?_, ?_⟩
  · intro h1 h2
    have hq1 : (pyStrip q == "") = false := pyStrip_ne_empty_of_length h1
    have hq0 : (q == "") = false := by
      rw [beq_eq_false_iff_ne]
      intro he
      subst he
      rw [show pyStrip "" = "" from rfl] at hq1
      simp at hq1
    unfold api.search_questions
    rw [hq0, hq1]
    simp only [Bool.or_self, Bool.false_eq_true, if_false]
    rw [if_neg (by omega)]
    unfold SQLiteFtsStrategy.search_questions
    rw [hq1]
    have hq2 : (pyStrip (pyStrip q) == "") = false := by
      rw [pyStrip_idem]
      exact hq1
    rw [hq2]
    simp only [Bool.or_self, Bool.false_eq_true, if_false]
    rw [if_neg]
    simp only [Bool.or_eq_true, decide_eq_true_eq, not_or, not_lt, not_le]
    omega
  · intro h0
    have he : (pyStrip q == "") = true := by
      rw [beq_iff_eq, pyStrip_empty_iff]
      exact List.length_eq_zero.mp h0
    unfold api.search_questions
    rw [he, Bool.or_true]
    rfl
  · intro hlong
    have hq1 : (pyStrip q == "") = false := pyStrip_ne_empty_of_length (by omega)
    have hq0 : (q == "") = false := by
      rw [beq_eq_false_iff_ne]
      intro he
      subst he
      rw [show pyStrip "" = "" from rfl] at hq1
      simp at hq1
    unfold api.search_questions
    rw [hq0, hq1]
    simp only [Bool.or_self, Bool.false_eq_true, if_false]
    rw [if_pos hlong]

/-- C3 (witness): the five-character query `hello` with limit 50 is accepted
and returns the pipeline result. -/
theorem search_query_length_validation_witness :
    (1 ≤ (pyStrip "hello").data.length → (pyStrip "hello").data.length ≤ 200 →
      api.search_questions "hello" 50 [] = .ok (searchPipeline [] (50 : Int).toNat)) ∧
    ((pyStrip "hello").data.length = 0 →
      api.search_questions "hello" 50 [] =
        .error (.validationFail "Search query cannot be empty")) ∧
    (200 < (pyStrip "hello").data.length →
      api.search_questions "hello" 50 [] =
        .error (.validationFail "Search query cannot exceed 200 characters")) :=
  search_query_length_validation "hello" 50 [] (by decide) (by decide)

theorem orTree_render (w : List Char) (ws : List (List Char)) :
    (orTree w ws).render = pyJoin " OR " ((w :: ws).map quotedToken) := by
  induction ws generalizing w with
  | nil => rfl
  | cons w2 ws ih =>
    show quotedToken w ++ " OR " ++ (orTree w2 ws).render = _
    rw [ih]
    rfl

theorem orTree_hit (d : List (List Char)) (w : List Char) (ws : List (List Char)) :
    (orTree w ws).hit d = (w :: ws).any (fun t => d.contains t) := by
  induction ws generalizing w with
  | nil => simp [orTree, FtsQuery.hit]
  | cons w2 ws ih => simp [orTree, FtsQuery.hit, ih]

/-- C6 (counterexample): the all-whitespace query `" "` is a non-empty query
string, yet the prepared query is the fallback quoted empty phrase, not the
OR-join of the (empty) escaped token list. -/
theorem prepare_fts_query_blank_counterexample :
    (" " : String) ≠ "" ∧
    SQLiteFtsStrategy.prepare_fts_query " " = "\"\"" ∧
    specPreparedQuery " " = "" ∧
    SQLiteFtsStrategy.prepare_fts_query " " ≠ specPreparedQuery " " := by
  refine ⟨by decide, by decide, by decide, by decide⟩

/-- C6 (amended): for every query containing at least one non-whitespace
character, the prepared full-text query is exactly the OR-join of the
whitespace-split, quote-escaped tokens of the trimmed query, and it renders
an OR-tree whose match semantics is satisfied by any document containing at
least one token — never requiring all of them. -/
theorem prepare_fts_query_or_construction (q : String)
    (h : ftsTokens q ≠ []) :
    SQLiteFtsStrategy.prepare_fts_query q = specPreparedQuery q ∧
    (∃ Q : FtsQuery,
      SQLiteFtsStrategy.prepare_fts_query q = Q.render ∧
      ∀ d : List (List Char),
        Q.hit d = (ftsTokens q).any (fun t => d.contains t)) := by
  obtain ⟨w, ws, hw⟩ := List.exists_cons_of_ne_nil h
  have hne : (ftsTokens q).isEmpty = false := by
    rw [hw]
    rfl
  have hpre : SQLiteFtsStrategy.prepare_fts_query q =
      pyJoin " OR " ((ftsTokens q).map quotedToken) := by
    show (if (ftsTokens q).isEmpty = true then "\"\""
      else pyJoin " OR " (List.map quotedToken (ftsTokens q))) =
      pyJoin " OR " ((ftsTokens q).map quotedToken)
    rw [hne]
    simp
  refine ⟨by rw [hpre]; rfl, orTree w ws, ?_, ?_⟩
  · rw [hpre, hw, orTree_render]
  · intro d
    rw [orTree_hit, hw]

/-- C6 (witness): the two-word query `foo bar` produces
`"foo" OR "bar"`, whose semantics accepts any document containing either
token. -/
theorem prepare_fts_query_or_construction_witness :
    SQLiteFtsStrategy.prepare_fts_query "foo bar" = specPreparedQuery "foo bar" ∧
    (∃ Q : FtsQuery,
      SQLiteFtsStrategy.prepare_fts_query "foo bar" = Q.render ∧
      ∀ d : List (List Char),
        Q.hit d = (ftsTokens "foo bar").any (fun t => d.contains t)) :=
  prepare_fts_query_or_construction "foo bar" (by decide)

end RCT
